import Mathlib

/-!
Verification development for the Mihaaru translator bot
(`mihaaru_translate_bot.py`).

The Python source is shallowly embedded below.  Pure string manipulation is
modelled on `String` / `List Char`; the effectful pipeline stages (HTTP fetch,
provider API calls, Telegram sends, replies, `logger.warning` calls and the
inter-part pacing sleep) are modelled by explicit oracles and by traces of
emitted events, so that every branch of the handlers is a total function of
its inputs.  `logger.info` statements carry no branching information and are
not modelled.
-/

/-- `Char.ofNat 10`, the `'\n'` character used by the chunking loop. -/
def newlineChar : Char := Char.ofNat 10

/-- Lower-case letter `a` used to build concrete example texts. -/
def charA : Char := Char.ofNat 97

/-- Lower-case letter `b` used to build concrete example texts. -/
def charB : Char := Char.ofNat 98

/-- `MAX_MESSAGE_LENGTH = 4000` from the source (conservative Telegram limit). -/
def MAX_MESSAGE_LENGTH : Nat := 4000

/-- Index of the last newline of a character list, `none` when there is no
newline.  `lastNewlinePos (text.take MAX_MESSAGE_LENGTH)` models Python's
`text.rfind('\n', current_pos, chunk_end)` on the suffix of `text` starting
at `current_pos` (with `-1` rendered as `none`). -/
def lastNewlinePos : List Char → Option Nat
  | [] => none
  | c :: cs =>
    match lastNewlinePos cs with
    | some j => some (j + 1)
    | none => if c = newlineChar then some 0 else none

/-- The chunking loop of `send_telegram_message_telethon` (source lines
244-257), expressed as a recursion over the unprocessed suffix of the text:
the suffix starting at `current_pos`.  The loop guard `current_pos <
len(text)` is the emptiness test; `chunk_end >= len(text)` is
`text.length ≤ MAX_MESSAGE_LENGTH` on the suffix; `text.rfind('\n',
current_pos, chunk_end)` is `lastNewlinePos (text.take MAX_MESSAGE_LENGTH)`;
and the guard `split_at > current_pos` is `0 < j` on the relative index. -/
def split_message (text : List Char) : List (List Char) :=
  if text = [] then []
  else if text.length ≤ MAX_MESSAGE_LENGTH then [text]
  else
    match lastNewlinePos (text.take MAX_MESSAGE_LENGTH) with
    | some j =>
      if 0 < j then
        text.take j :: split_message (text.drop (j + 1))
      else
        text.take MAX_MESSAGE_LENGTH :: split_message (text.drop MAX_MESSAGE_LENGTH)
    | none =>
      text.take MAX_MESSAGE_LENGTH :: split_message (text.drop MAX_MESSAGE_LENGTH)
termination_by text.length
decreasing_by
  all_goals simp only [List.length_drop]
  all_goals
    have hM : MAX_MESSAGE_LENGTH = 4000 := rfl
    omega

/-- Modelled from the spec: the chunker described by the spec's words,
"preferring to break at the last newline within the current window; if no
newline exists in-window, hard-cut at the length boundary" — i.e. a break at
the last in-window newline is taken whenever such a newline exists, with no
strictness condition on its position.  Used only to compare the spec's
description against `split_message`. -/
def chunkSpec (text : List Char) : List (List Char) :=
  if text = [] then []
  else if text.length ≤ MAX_MESSAGE_LENGTH then [text]
  else
    match lastNewlinePos (text.take MAX_MESSAGE_LENGTH) with
    | some j => text.take j :: chunkSpec (text.drop (j + 1))
    | none =>
      text.take MAX_MESSAGE_LENGTH :: chunkSpec (text.drop MAX_MESSAGE_LENGTH)
termination_by text.length
decreasing_by
  all_goals simp only [List.length_drop]
  all_goals
    have hM : MAX_MESSAGE_LENGTH = 4000 := rfl
    omega

/-- Interleaves message parts with the separator strings that were dropped
between them; with `seps` exhausted the remaining parts are concatenated
directly.  `interleave parts seps = text` states that `text` is recovered
from `parts` by re-inserting the dropped separators. -/
def interleave : List (List Char) → List (List Char) → List Char
  | [], seps => seps.flatten
  | p :: ps, [] => p ++ interleave ps []
  | p :: ps, s :: ss => p ++ s ++ interleave ps ss

/-- Concrete text of length 4001 used to instantiate the chunking theorems. -/
def longPlainText : List Char := List.replicate 4001 charA

/-- Suffix of `edgeText` remaining after its first hard cut: a newline
followed by 4001 letters. -/
def edgeTail : List Char := newlineChar :: List.replicate 4001 charB

/-- Concrete text exercising the window-initial-newline edge of the chunking
loop: 4000 letters, a newline, then 4001 more letters (length 8002). -/
def edgeText : List Char := List.replicate 4000 charA ++ edgeTail

/-- Observable events of the delivery loop: a `client.send_message` call for
part `index` (the `try` body), the `logger.error` of a caught send failure
(the `except` branch), and the `asyncio.sleep(1)` pacing pause. -/
inductive SendEvent
  | attempt (index : Nat) (part : List Char)
  | failure_logged (index : Nat)
  | pause (seconds : Nat)
deriving DecidableEq

/-- The per-part delivery loop of `send_telegram_message_telethon` (source
lines 259-266), as the trace of events it emits.  `send_ok i` is the oracle
telling whether the send of part `i` succeeds or raises; `total` is
`len(parts)`; `i` is the enumeration index.  The `asyncio.sleep(1)` sits
inside the `try`, so it is reached only when the send of the current part
succeeded and the part is not the last one. -/
def send_parts_loop (send_ok : Nat → Bool) (total : Nat) : Nat → List (List Char) → List SendEvent
  | _, [] => []
  | i, part :: rest =>
    (SendEvent.attempt i part ::
      (if send_ok i then
        (if i < total - 1 then [SendEvent.pause 1] else [])
      else [SendEvent.failure_logged i]))
    ++ send_parts_loop send_ok total (i + 1) rest

/-- Delivery of a multi-part message: the loop started at index 0. -/
def send_parts (send_ok : Nat → Bool) (parts : List (List Char)) : List SendEvent :=
  send_parts_loop send_ok parts.length 0 parts

/-- `send_telegram_message_telethon` in full (source lines 230-266): a text
of at most `MAX_MESSAGE_LENGTH` characters is sent as a single message (one
`try`/`except`, no pacing pause); a longer text is split by the chunking
loop and delivered part by part. -/
def send_telegram_message_telethon (send_ok : Nat → Bool) (text : List Char) : List SendEvent :=
  if text.length ≤ MAX_MESSAGE_LENGTH then
    SendEvent.attempt 0 text :: (if send_ok 0 then [] else [SendEvent.failure_logged 0])
  else
    send_parts send_ok (split_message text)

/-- Projection of a delivery trace to the send attempts it contains, with
their enumeration indices. -/
def attempts_of (events : List SendEvent) : List (Nat × List Char) :=
  events.filterMap (fun e =>
    match e with
    | SendEvent.attempt i p => some (i, p)
    | SendEvent.failure_logged _ => none
    | SendEvent.pause _ => none)

/-- Send oracle for which the first part's send raises and every later send
succeeds. -/
def firstSendFails : Nat → Bool := fun i => decide (0 < i)

/-- Send oracle for which every send succeeds. -/
def allSendsOk : Nat → Bool := fun _ => true

/-- Two concrete one-character message parts. -/
def twoParts : List (List Char) := [[charA], [charB]]

-- Translation dispatch (`translate_text`, source lines 164-227).

/-- The value of the `TRANSLATION_PROVIDER` environment variable as the
source interprets it: one of the two supported providers, or anything
else. -/
inductive Provider
  | openai
  | anthropic
  | invalid
deriving DecidableEq

/-- The process-wide translation configuration and the behaviour of the two
provider SDKs.  `openai_client` / `anthropic_client` tell whether the
corresponding client object was initialised at startup (an API key was
present).  `openai_response text is_title` is the stripped translation text
returned by a successful `chat.completions.create` call, or `none` when the
call raises; `anthropic_response` likewise for `messages.create`. -/
structure TranslationBackend where
  provider : Provider
  openai_client : Bool
  anthropic_client : Bool
  openai_response : String → Bool → Option String
  anthropic_response : String → Bool → Option String

/-- Python truthiness of an optional string: `none` and the empty string are
falsy. -/
def py_truthy : Option String → Bool
  | none => false
  | some s => if s = "" then false else true

/-- `translate_text` (source lines 164-227), returning the translation
result together with the number of external provider calls made.  Empty
input returns immediately with no call; a missing client or an invalid
provider logs and returns `none` with no call; otherwise exactly one
provider call is made and its result (or `none` on a raised error) is
returned. -/
def translate_text (env : TranslationBackend) (dhivehi_text : String) (is_title : Bool) :
    Option String × Nat :=
  if dhivehi_text = "" then (none, 0)
  else
    match env.provider with
    | Provider.openai =>
      if env.openai_client then (env.openai_response dhivehi_text is_title, 1) else (none, 0)
    | Provider.anthropic =>
      if env.anthropic_client then (env.anthropic_response dhivehi_text is_title, 1) else (none, 0)
    | Provider.invalid => (none, 0)

-- Event handlers (`handle_new_post`, source lines 355-394, and
-- `manual_translate_handler`, source lines 398-439).

/-- Observable outbound behaviour of a handler invocation: a
`logger.warning` call, an `event.reply`, or a `send_telegram_message_telethon`
call with the composed message (to the target channel for the automatic
handler, to the triggering chat for the manual one). -/
inductive BotAction
  | warn (message : String)
  | reply (message : String)
  | send (message : String)
deriving DecidableEq

/-- The observable outcome of one handler invocation: the ordered outbound
actions, and the number of external translation-provider calls made. -/
structure Trace where
  actions : List BotAction
  api_calls : Nat
deriving DecidableEq

/-- HTML-escaping of the article URL before embedding it in the anchor
(source lines 388 and 434). -/
def format_url (url : String) : String :=
  ((url.replace "&" "&amp;").replace "<" "&lt;").replace ">" "&gt;"

/-- Assembly of the outbound message (source lines 383-389 and 429-435):
bold title block when the translated title is truthy, translated body, and
the escaped source link. -/
def compose_message (translated_title : Option String) (body_en : String) (url : String) :
    String :=
  (match translated_title with
   | some t => if t = "" then "" else "<b>" ++ t ++ "</b>\n\n"
   | none => "")
  ++ body_en ++ "\n\n"
  ++ "<a href=\"" ++ format_url url ++ "\">Original Article</a>"

/-- The `logger.warning` text of the automatic handler's extraction abort. -/
def auto_extract_warn (url : String) : String :=
  "Article body text extraction failed or text too short for URL: " ++ url

/-- The `logger.warning` text of the automatic handler's body-translation
abort. -/
def auto_translate_warn (url : String) : String :=
  "Translation of body failed for article from " ++ url ++ "."

/-- The usage-guidance reply of the manual handler when no URL is given. -/
def manual_usage_reply : String :=
  "Please provide a URL after the /translate command. Example: `/translate https://example.com/article`"

/-- The start-of-processing reply of the manual handler. -/
def manual_processing_reply (url : String) : String :=
  "Processing manual translation for: " ++ url ++ "..."

/-- The `logger.warning` text of the manual handler's extraction abort. -/
def manual_extract_warn (url : String) : String :=
  "Manual Translate: Article body text extraction failed or text too short for URL: " ++ url

/-- The extraction-failure reply of the manual handler. -/
def manual_extract_reply (url : String) : String :=
  "Could not extract enough article body text from " ++ url ++ ". Please check the URL or try another."

/-- The `logger.warning` text of the manual handler's body-translation
abort. -/
def manual_translate_warn (url : String) : String :=
  "Manual Translate: Translation of body failed for article from " ++ url ++ "."

/-- The translation-failure reply of the manual handler. -/
def manual_translate_reply (url : String) : String :=
  "Translation of body failed for " ++ url
    ++ ". The translation service might be unavailable or the content is not translatable."

/-- The title-translation step shared by both handlers (source lines 372-375
and 417-420): the title is translated only when it is truthy. -/
def translate_title_step (env : TranslationBackend) (dhivehi_title : Option String) :
    Option String × Nat :=
  match dhivehi_title with
  | none => (none, 0)
  | some t => if t = "" then (none, 0) else translate_text env t true

/-- `handle_new_post` (source lines 355-394) from the point where the URL
regex has run: `urls` is the regex match list on the post text, `fetched`
is the `(dhivehi_title, article_text_dhivehi)` pair returned by
`fetch_article_text url`.  No URL means a silent return; an absent or
too-short (< 50 characters) body aborts with only a warning logged; a falsy
body translation aborts with only a warning logged; otherwise the composed
message is sent to the target channel. -/
def handle_new_post (env : TranslationBackend) (urls : List String)
    (fetched : Option String × Option String) : Trace :=
  match urls with
  | [] => ⟨[], 0⟩
  | url :: _ =>
    let dhivehi_title := fetched.1
    let article_text_dhivehi := fetched.2
    if py_truthy article_text_dhivehi = false ∨ (article_text_dhivehi.getD "").length < 50 then
      ⟨[BotAction.warn (auto_extract_warn url)], 0⟩
    else
      let title_result := translate_title_step env dhivehi_title
      let body_result := translate_text env (article_text_dhivehi.getD "") false
      if py_truthy body_result.1 = false then
        ⟨[BotAction.warn (auto_translate_warn url)], title_result.2 + body_result.2⟩
      else
        ⟨[BotAction.send (compose_message title_result.1 (body_result.1.getD "") url)],
         title_result.2 + body_result.2⟩

/-- `manual_translate_handler` (source lines 398-439) from the point where
the URL regex has run on the command argument.  No URL produces the usage
reply; otherwise a start-of-processing reply is sent, then an absent or
too-short (< 30 characters) body aborts with a warning and an explanatory
reply; a falsy body translation aborts with a warning and an explanatory
reply; otherwise the composed message is sent to the triggering chat. -/
def manual_translate_handler (env : TranslationBackend) (urls : List String)
    (fetched : Option String × Option String) : Trace :=
  match urls with
  | [] => ⟨[BotAction.reply manual_usage_reply], 0⟩
  | url :: _ =>
    let dhivehi_title := fetched.1
    let article_text_dhivehi := fetched.2
    if py_truthy article_text_dhivehi = false ∨ (article_text_dhivehi.getD "").length < 30 then
      ⟨[BotAction.reply (manual_processing_reply url),
        BotAction.warn (manual_extract_warn url),
        BotAction.reply (manual_extract_reply url)], 0⟩
    else
      let title_result := translate_title_step env dhivehi_title
      let body_result := translate_text env (article_text_dhivehi.getD "") false
      if py_truthy body_result.1 = false then
        ⟨[BotAction.reply (manual_processing_reply url),
          BotAction.warn (manual_translate_warn url),
          BotAction.reply (manual_translate_reply url)],
         title_result.2 + body_result.2⟩
      else
        ⟨[BotAction.reply (manual_processing_reply url),
          BotAction.send (compose_message title_result.1 (body_result.1.getD "") url)],
         title_result.2 + body_result.2⟩

-- Article extraction (`fetch_article_text`, source lines 86-162).

/-- An HTML element as the comment-based body walk sees it: tag name, class
attribute tokens, and the text `get_text(separator='\n', strip=True)` would
return for it. -/
structure HtmlElement where
  name : String
  classes : List String
  text : String
deriving DecidableEq

/-- The stop condition of the comment-based walk (source lines 120-125): a
`div` carrying classes `hidden`, `lg:block` and one of `m1-10` / `ml-10`. -/
def is_stop_divider (e : HtmlElement) : Bool :=
  e.name == "div" && e.classes.contains "hidden" && e.classes.contains "lg:block"
    && (e.classes.contains "m1-10" || e.classes.contains "ml-10")

/-- The paragraph filter of the comment-based walk (source lines 126-133):
a `p` carrying `text-19px` and `leading-loose`, together with either
`text-faseyha` or both `max-w-3xl` and `text-black-two`. -/
def is_article_paragraph (e : HtmlElement) : Bool :=
  e.name == "p" && e.classes.contains "text-19px" && e.classes.contains "leading-loose"
    && (e.classes.contains "text-faseyha"
        || (e.classes.contains "max-w-3xl" && e.classes.contains "text-black-two"))

/-- The comment-based walk over `article_body_comment.find_all_next()`
(source lines 117-133): `elems` is the sequence of elements following the
marker comment in document order; collection stops at the first stop
divider and otherwise keeps the text of each matching paragraph. -/
def collect_article_texts : List HtmlElement → List String
  | [] => []
  | e :: rest =>
    if is_stop_divider e then []
    else if is_article_paragraph e then e.text :: collect_article_texts rest
    else collect_article_texts rest

/-- The comment-based body text (source lines 134-135): the collected
paragraph texts joined with blank lines, or `""` when nothing matched. -/
def comment_based_body (elems : List HtmlElement) : String :=
  let article_texts := collect_article_texts elems
  if article_texts = [] then "" else String.intercalate "\n\n" article_texts

/-- The portion of `fetch_article_text` downstream of fetching and parsing,
as a function of what the parse found.  `dhivehi_title` is the text of the
first matching `h1` (after the two class-marker searches), `none` when no
tag matched; `comment_elements` is the element sequence following the
`article body` marker comment, `none` when the comment is absent;
`article_text` is the first `article` tag's text, `none` when absent;
`fallback_text` is `soup.body`'s text, or the whole document's text when
there is no `body`. -/
structure ParsedDoc where
  dhivehi_title : Option String
  comment_elements : Option (List HtmlElement)
  article_text : Option String
  fallback_text : String
deriving DecidableEq

/-- `extracted_body_text` as computed by source lines 112-146: the
comment-based text when the comment is present and the walk produced
something, else the `article` tag's text, else the fallback text. -/
def extracted_body_text (doc : ParsedDoc) : String :=
  let from_comment : String :=
    match doc.comment_elements with
    | some elems => comment_based_body elems
    | none => ""
  if from_comment = "" then
    match doc.article_text with
    | some a => a
    | none => doc.fallback_text
  else from_comment

/-- The character class of Python's `\s` (and `str.strip`) restricted to
ASCII: space, tab, newline, carriage return, vertical tab, form feed.  The
texts this program manipulates are handled character by character, so the
non-ASCII Unicode whitespace accepted by Python is not modelled. -/
def py_space_chars : List Char :=
  [Char.ofNat 32, Char.ofNat 9, Char.ofNat 10, Char.ofNat 13, Char.ofNat 11, Char.ofNat 12]

/-- Whitespace test used by the post-processing steps. -/
def pyIsSpace (c : Char) : Bool := py_space_chars.contains c

/-- Python `str.strip()` on the modelled whitespace class. -/
def py_strip (s : String) : String :=
  String.mk (((s.data.dropWhile pyIsSpace).reverse.dropWhile pyIsSpace).reverse)

/-- `re.sub(r'(\s*\n\s*){3,}', '\n\n', text)` (source line 150).  A match of
that pattern is exactly a maximal whitespace run containing at least three
newlines (each repetition of the group consumes at least one newline, and
the greedy quantifiers extend the match over the whole run), and each such
run is replaced by one blank line. -/
def collapse_ws_runs : List Char → List Char
  | [] => []
  | c :: cs =>
    if pyIsSpace c then
      (if 3 ≤ ((c :: cs.takeWhile pyIsSpace).countP (fun x => x == newlineChar))
       then [newlineChar, newlineChar]
       else c :: cs.takeWhile pyIsSpace)
      ++ collapse_ws_runs (cs.dropWhile pyIsSpace)
    else c :: collapse_ws_runs cs
termination_by l => l.length
decreasing_by
  all_goals simp only [List.length_cons]
  · exact Nat.lt_succ_of_le (List.dropWhile_sublist pyIsSpace).length_le
  · omega

/-- The whitespace collapse of source line 150 on a `String`. -/
def collapse_ws (s : String) : String := String.mk (collapse_ws_runs s.data)

/-- `final_body_text` as computed by source lines 148-151: `None` when the
extracted body text is empty, otherwise the collapsed and stripped text. -/
def final_body_text (doc : ParsedDoc) : Option String :=
  if extracted_body_text doc = "" then none
  else some (py_strip (collapse_ws (extracted_body_text doc)))

/-- The result of `fetch_article_text` downstream of fetching and parsing
(source lines 154-158): `(None, None)` when both the title and the final
body text are falsy, otherwise the pair as found. -/
def fetch_article_text (doc : ParsedDoc) : Option String × Option String :=
  if py_truthy doc.dhivehi_title = false ∧ py_truthy (final_body_text doc) = false then
    (none, none)
  else (doc.dhivehi_title, final_body_text doc)

-- Concrete inputs instantiating the handler and extraction theorems.

/-- The paragraph classes of the C3 scenario. -/
def scenario_p_classes : List String := ["text-19px", "leading-loose", "text-faseyha"]

/-- The element sequence of the C3 scenario: three matching paragraphs, the
stop divider, and a fourth matching paragraph after the divider. -/
def scenario_elements (t1 t2 t3 t4 : String) : List HtmlElement :=
  [⟨"p", scenario_p_classes, t1⟩,
   ⟨"p", scenario_p_classes, t2⟩,
   ⟨"p", scenario_p_classes, t3⟩,
   ⟨"div", ["hidden", "lg:block", "ml-10"], ""⟩,
   ⟨"p", scenario_p_classes, t4⟩]

/-- The C3 scenario as a parsed document (no title, no further fallbacks). -/
def scenario_doc (t1 t2 t3 t4 : String) : ParsedDoc :=
  ⟨none, some (scenario_elements t1 t2 t3 t4), none, ""⟩

/-- A 50-character article body used to instantiate the handler theorems. -/
def body50 : String := String.mk (List.replicate 50 charA)

/-- A backend whose provider is configured and reachable, whose title calls
all fail, and whose body calls all succeed. -/
def titleFailBackend : TranslationBackend :=
  ⟨Provider.openai, true, false,
   fun _ is_title => if is_title then none else some "Translated body.",
   fun _ _ => none⟩

/-- A backend whose provider is configured and reachable, whose title calls
all succeed, and whose body calls all fail. -/
def bodyFailBackend : TranslationBackend :=
  ⟨Provider.openai, true, false,
   fun _ is_title => if is_title then some "Translated title." else none,
   fun _ _ => none⟩

/-- A concrete parsed document with a title and an `article`-tag body. -/
def simpleDoc : ParsedDoc := ⟨some "Title", none, some "Body", ""⟩

-- Helper lemmas about `lastNewlinePos`.

theorem lastNewlinePos_getElem {l : List Char} {j : Nat}
    (h : lastNewlinePos l = some j) : l[j]? = some newlineChar := by
  induction l generalizing j with
  | nil => simp [lastNewlinePos] at h
  | cons c cs ih =>
    rw [lastNewlinePos] at h
    cases hcs : lastNewlinePos cs with
    | some j0 =>
      rw [hcs] at h
      cases h
      simpa using ih hcs
    | none =>
      rw [hcs] at h
      by_cases hc : c = newlineChar
      · simp only [hc, if_pos rfl] at h
        cases h
        simp [hc]
      · simp [hc] at h

theorem lastNewlinePos_lt_length {l : List Char} {j : Nat}
    (h : lastNewlinePos l = some j) : j < l.length :=
  (List.getElem?_eq_some.mp (lastNewlinePos_getElem h)).1

theorem lastNewlinePos_replicate_ne {n : Nat} {c : Char} (hc : ¬ c = newlineChar) :
    lastNewlinePos (List.replicate n c) = none := by
  induction n with
  | zero => simp [lastNewlinePos]
  | succ n ih =>
    rw [List.replicate_succ, lastNewlinePos, ih]
    simp [hc]

theorem lastNewlinePos_cons_newline {l : List Char} (h : lastNewlinePos l = none) :
    lastNewlinePos (newlineChar :: l) = some 0 := by
  rw [lastNewlinePos, h]
  simp

-- Master lemma for the chunking loop: parts are non-empty and bounded, and
-- the original text is recovered by re-inserting one dropped separator
-- (either nothing, for a hard cut, or a single newline) between adjacent
-- parts.

theorem split_message_master (text : List Char) :
    (∀ p ∈ split_message text, p ≠ [] ∧ p.length ≤ MAX_MESSAGE_LENGTH) ∧
    ∃ seps : List (List Char),
      (∀ s ∈ seps, s = [] ∨ s = [newlineChar]) ∧
      interleave (split_message text) seps = text := by
  generalize hn : text.length = n
  induction n using Nat.strong_induction_on generalizing text with
  | _ n ih =>
  have hM : MAX_MESSAGE_LENGTH = 4000 := rfl
  by_cases h0 : text = []
  · subst h0
    rw [split_message]
    exact ⟨by simp, [], by simp, by simp [interleave]⟩
  · by_cases h1 : text.length ≤ MAX_MESSAGE_LENGTH
    · rw [split_message, if_neg h0, if_pos h1]
      refine ⟨?_, [], ?_, ?_⟩
      · intro p hp
        simp only [List.mem_singleton] at hp
        subst hp
        exact ⟨h0, h1⟩
      · simp
      · simp [interleave]
    · have hlen : MAX_MESSAGE_LENGTH < text.length := Nat.lt_of_not_le h1
      have htpos : 0 < text.length := Nat.lt_of_le_of_lt (Nat.zero_le _) hlen
      -- facts shared by the two hard-cut branches
      have hard :
          (∀ p ∈ (text.take MAX_MESSAGE_LENGTH :: split_message (text.drop MAX_MESSAGE_LENGTH)),
              p ≠ [] ∧ p.length ≤ MAX_MESSAGE_LENGTH) ∧
          ∃ seps : List (List Char),
            (∀ s ∈ seps, s = [] ∨ s = [newlineChar]) ∧
            interleave (text.take MAX_MESSAGE_LENGTH :: split_message (text.drop MAX_MESSAGE_LENGTH)) seps
              = text := by
        have hdlt : (text.drop MAX_MESSAGE_LENGTH).length < n := by
          simp only [List.length_drop]
          omega
        obtain ⟨hparts, seps, hseps, hjoin⟩ :=
          ih (text.drop MAX_MESSAGE_LENGTH).length hdlt (text.drop MAX_MESSAGE_LENGTH) rfl
        refine ⟨?_, [] :: seps, ?_, ?_⟩
        · intro p hp
          rcases List.mem_cons.mp hp with hp | hp
          · subst hp
            constructor
            · intro hcontra
              have := congrArg List.length hcontra
              simp only [List.length_take, List.length_nil] at this
              omega
            · simp [List.length_take]
          · exact hparts p hp
        · intro s hs
          rcases List.mem_cons.mp hs with hs | hs
          · exact Or.inl hs
          · exact hseps s hs
        · rw [interleave, hjoin]
          simp [List.take_append_drop]
      rw [split_message, if_neg h0, if_neg h1]
      cases hE : lastNewlinePos (text.take MAX_MESSAGE_LENGTH) with
      | none => exact hard
      | some j =>
        dsimp only
        by_cases hj : 0 < j
        · rw [if_pos hj]
          have hjlt : j < (text.take MAX_MESSAGE_LENGTH).length := lastNewlinePos_lt_length hE
          have hjlt2 : j < MAX_MESSAGE_LENGTH := by
            simp only [List.length_take] at hjlt
            omega
          have hjlen : j < text.length := by
            simp only [List.length_take] at hjlt
            omega
          have hnl : text[j]? = some newlineChar := by
            have := lastNewlinePos_getElem hE
            rwa [List.getElem?_take_of_lt hjlt2] at this
          have hdlt : (text.drop (j + 1)).length < n := by
            simp only [List.length_drop]
            omega
          obtain ⟨hparts, seps, hseps, hjoin⟩ :=
            ih (text.drop (j + 1)).length hdlt (text.drop (j + 1)) rfl
          refine ⟨?_, [newlineChar] :: seps, ?_, ?_⟩
          · intro p hp
            rcases List.mem_cons.mp hp with hp | hp
            · subst hp
              constructor
              · intro hcontra
                have := congrArg List.length hcontra
                simp only [List.length_take, List.length_nil] at this
                omega
              · simp only [List.length_take]
                omega
            · exact hparts p hp
          · intro s hs
            rcases List.mem_cons.mp hs with hs | hs
            · exact Or.inr hs
            · exact hseps s hs
          · rw [interleave, hjoin]
            have hsplit : text = text.take j ++ newlineChar :: text.drop (j + 1) := by
              have hd : text.drop j = newlineChar :: text.drop (j + 1) := by
                have heq := List.drop_eq_getElem_cons hjlen
                have hval : text[j] = newlineChar := by
                  have h2 := List.getElem?_eq_getElem (l := text) hjlen
                  rw [h2] at hnl
                  exact Option.some.inj hnl
                rw [heq, hval]
              calc text = text.take j ++ text.drop j := (List.take_append_drop j text).symm
                _ = text.take j ++ newlineChar :: text.drop (j + 1) := by rw [hd]
            calc text.take j ++ [newlineChar] ++ text.drop (j + 1)
                = text.take j ++ newlineChar :: text.drop (j + 1) := by simp
              _ = text := hsplit.symm
        · rw [if_neg hj]
          exact hard

theorem split_message_ne_nil {text : List Char} (h : text ≠ []) :
    split_message text ≠ [] := by
  rw [split_message, if_neg h]
  by_cases h1 : text.length ≤ MAX_MESSAGE_LENGTH
  · simp [h1]
  · rw [if_neg h1]
    cases hE : lastNewlinePos (text.take MAX_MESSAGE_LENGTH) with
    | none => simp
    | some j =>
      by_cases hj : 0 < j <;> simp [hj]

-- Computation of the chunking functions on the concrete edge text.

theorem split_message_of_small {text : List Char} (h0 : text ≠ [])
    (h1 : text.length ≤ MAX_MESSAGE_LENGTH) : split_message text = [text] := by
  rw [split_message, if_neg h0, if_pos h1]

theorem edgeTail_ne_nil : edgeTail ≠ [] := by
  rw [edgeTail]
  exact List.cons_ne_nil _ _

theorem edgeTail_long : ¬ edgeTail.length ≤ MAX_MESSAGE_LENGTH := by
  rw [edgeTail]
  simp only [List.length_cons, List.length_replicate, MAX_MESSAGE_LENGTH]
  omega

theorem edgeTail_take :
    edgeTail.take MAX_MESSAGE_LENGTH = newlineChar :: List.replicate 3999 charB := by
  rw [edgeTail, List.take_cons (by decide : 0 < MAX_MESSAGE_LENGTH), List.take_replicate]
  norm_num [MAX_MESSAGE_LENGTH]

theorem edgeTail_drop :
    edgeTail.drop MAX_MESSAGE_LENGTH = List.replicate 2 charB := by
  rw [edgeTail, (by decide : MAX_MESSAGE_LENGTH = 3999 + 1), List.drop_succ_cons,
    List.drop_replicate]

theorem lastNewlinePos_edge_window :
    lastNewlinePos (newlineChar :: List.replicate 3999 charB) = some 0 :=
  lastNewlinePos_cons_newline (lastNewlinePos_replicate_ne (by decide))

theorem small_tail_ne_nil : List.replicate 2 charB ≠ [] := by
  decide

theorem small_tail_short : (List.replicate 2 charB).length ≤ MAX_MESSAGE_LENGTH := by
  decide

theorem split_message_edgeTail :
    split_message edgeTail =
      [newlineChar :: List.replicate 3999 charB, List.replicate 2 charB] := by
  rw [split_message, if_neg edgeTail_ne_nil, if_neg edgeTail_long, edgeTail_take,
    edgeTail_drop, lastNewlinePos_edge_window]
  dsimp only
  rw [if_neg (by decide : ¬ (0:Nat) < 0),
    split_message_of_small small_tail_ne_nil small_tail_short]

theorem edgeText_ne_nil : edgeText ≠ [] := by
  rw [edgeText]
  intro h
  exact edgeTail_ne_nil (List.append_eq_nil.mp h).2

theorem edgeText_take :
    edgeText.take MAX_MESSAGE_LENGTH = List.replicate 4000 charA := by
  rw [edgeText]
  exact List.take_left' (by rw [List.length_replicate]; rfl)

theorem edgeText_drop : edgeText.drop MAX_MESSAGE_LENGTH = edgeTail := by
  rw [edgeText]
  exact List.drop_left' (by rw [List.length_replicate]; rfl)

theorem edgeText_long : ¬ edgeText.length ≤ MAX_MESSAGE_LENGTH := by
  rw [edgeText, edgeTail]
  simp only [List.length_append, List.length_cons, List.length_replicate,
    MAX_MESSAGE_LENGTH]
  omega

theorem lastNewlinePos_edgeText_window :
    lastNewlinePos (edgeText.take MAX_MESSAGE_LENGTH) = none := by
  rw [edgeText_take]
  exact lastNewlinePos_replicate_ne (by decide)

theorem split_message_edge :
    split_message edgeText =
      [List.replicate 4000 charA, newlineChar :: List.replicate 3999 charB,
       List.replicate 2 charB] := by
  rw [split_message, if_neg edgeText_ne_nil, if_neg edgeText_long,
    lastNewlinePos_edgeText_window]
  dsimp only
  rw [edgeText_take, edgeText_drop, split_message_edgeTail]

theorem chunkSpec_edge :
    chunkSpec edgeText =
      List.replicate 4000 charA :: [] :: chunkSpec (List.replicate 4001 charB) := by
  rw [chunkSpec, if_neg edgeText_ne_nil, if_neg edgeText_long,
    lastNewlinePos_edgeText_window]
  dsimp only
  rw [edgeText_take, edgeText_drop]
  congr 1
  rw [chunkSpec, if_neg edgeTail_ne_nil, if_neg edgeTail_long, edgeTail_take,
    lastNewlinePos_edge_window]
  dsimp only
  rw [edgeTail, List.take_zero, List.drop_one, List.tail_cons]

/-- C2, counterexample: on `edgeText` the loop's second window starts with the
window's only newline, so the code hard-cuts even though a newline exists in
the window; the chunker described by the spec's wording breaks at that
newline (producing an empty part) and yields a different part list. -/
theorem chunking_spec_wording_counterexample :
    split_message edgeText ≠ chunkSpec edgeText := by
  rw [split_message_edge, chunkSpec_edge]
  intro h
  have h2 := (List.cons.injEq _ _ _ _ ▸ h).2
  have h3 := (List.cons.injEq _ _ _ _ ▸ h2).1
  exact List.cons_ne_nil _ _ h3

/-- C2 (amended): for every text longer than 4000 characters the chunking
loop yields a non-empty ordered sequence of non-empty parts, each at most
4000 characters; the text is rebuilt by re-inserting between adjacent parts
the separator dropped there — a single newline at a newline split (only
taken when the window's last newline lies strictly after the window start),
nothing at a hard cut — so concatenating the parts in order preserves all
non-newline content and drops only newlines at chosen split points. -/
theorem chunking_bounds_and_reconstruction (text : List Char)
    (h : MAX_MESSAGE_LENGTH < text.length) :
    split_message text ≠ [] ∧
    (∀ p ∈ split_message text, p ≠ [] ∧ p.length ≤ MAX_MESSAGE_LENGTH) ∧
    ∃ seps : List (List Char),
      (∀ s ∈ seps, s = [] ∨ s = [newlineChar]) ∧
      interleave (split_message text) seps = text := by
  obtain ⟨h1, h2⟩ := split_message_master text
  refine ⟨split_message_ne_nil ?_, h1, h2⟩
  intro h0
  rw [h0] at h
  exact absurd h (by decide)

/-- Witness for C2 at the concrete 4001-character text. -/
theorem chunking_bounds_and_reconstruction_witness :
    MAX_MESSAGE_LENGTH < longPlainText.length ∧
    (split_message longPlainText ≠ [] ∧
     (∀ p ∈ split_message longPlainText, p ≠ [] ∧ p.length ≤ MAX_MESSAGE_LENGTH) ∧
     ∃ seps : List (List Char),
       (∀ s ∈ seps, s = [] ∨ s = [newlineChar]) ∧
       interleave (split_message longPlainText) seps = longPlainText) :=
  ⟨by rw [longPlainText]; simp only [List.length_replicate]; decide,
   chunking_bounds_and_reconstruction longPlainText
     (by rw [longPlainText]; simp only [List.length_replicate]; decide)⟩

/-- C10: the chunking loop terminates — witnessed by `split_message` being
accepted as a total function, with the measure `text.length` (the current
position strictly increases whether a newline split or a hard cut is taken)
— and every part it emits is a non-empty string, because a newline split is
only taken when its index lies strictly after the window start. -/
theorem split_message_parts_nonempty (text : List Char) (p : List Char)
    (hp : p ∈ split_message text) : p ≠ [] ∧ 0 < p.length := by
  have h := (split_message_master text).1 p hp
  exact ⟨h.1, List.length_pos.mpr h.1⟩

/-- Witness for C10 at the concrete edge text. -/
theorem split_message_parts_nonempty_witness :
    List.replicate 4000 charA ∈ split_message edgeText ∧
    (List.replicate 4000 charA ≠ [] ∧ 0 < (List.replicate 4000 charA).length) :=
  ⟨by rw [split_message_edge]; exact List.mem_cons_self _ _,
   split_message_parts_nonempty edgeText (List.replicate 4000 charA)
     (by rw [split_message_edge]; exact List.mem_cons_self _ _)⟩

-- Delivery loop lemmas.

theorem attempts_of_cons (e : SendEvent) (l : List SendEvent) :
    attempts_of (e :: l) =
      (match e with
       | SendEvent.attempt i p => [(i, p)]
       | SendEvent.failure_logged _ => []
       | SendEvent.pause _ => []) ++ attempts_of l := by
  cases e <;> simp [attempts_of]

theorem attempts_of_append (l₁ l₂ : List SendEvent) :
    attempts_of (l₁ ++ l₂) = attempts_of l₁ ++ attempts_of l₂ := by
  simp [attempts_of, List.filterMap_append]

theorem attempts_of_send_parts_loop (send_ok : Nat → Bool) (total : Nat)
    (parts : List (List Char)) :
    ∀ i : Nat, attempts_of (send_parts_loop send_ok total i parts) = parts.enumFrom i := by
  induction parts with
  | nil => intro i; rfl
  | cons p rest ih =>
    intro i
    have hextra :
        attempts_of (if send_ok i then (if i < total - 1 then [SendEvent.pause 1] else [])
          else [SendEvent.failure_logged i]) = [] := by
      cases hok : send_ok i
      · simp [attempts_of]
      · by_cases hlt : i < total - 1 <;> simp [hlt, attempts_of]
    rw [send_parts_loop, List.cons_append, attempts_of_cons, attempts_of_append, hextra,
      ih (i + 1), List.enumFrom_cons]
    rfl

theorem send_parts_loop_all_ok (send_ok : Nat → Bool) (hok : ∀ k, send_ok k = true) :
    ∀ (parts : List (List Char)) (i total : Nat), i + parts.length = total →
      send_parts_loop send_ok total i parts =
        List.intersperse (SendEvent.pause 1)
          ((parts.enumFrom i).map (fun ip => SendEvent.attempt ip.1 ip.2)) := by
  intro parts
  induction parts with
  | nil => intro i total _; rfl
  | cons p rest ih =>
    intro i total h
    rw [send_parts_loop, if_pos (hok i)]
    cases rest with
    | nil =>
      have hni : ¬ i < total - 1 := by
        simp only [List.length_cons, List.length_nil] at h
        omega
      rw [if_neg hni]
      rfl
    | cons q rest2 =>
      have hlt : i < total - 1 := by
        simp only [List.length_cons] at h
        omega
      have ih2 := ih (i + 1) total (by simp only [List.length_cons] at h ⊢; omega)
      rw [if_pos hlt, List.cons_append, List.singleton_append, ih2]
      simp only [List.enumFrom_cons, List.map_cons, List.intersperse_cons₂]

/-- C6 (amended): parts are attempted strictly in sequence order and a send
failure on part `i` does not prevent the attempt of part `i+1` (the attempt
projection of the trace is exactly the enumerated part list, for every send
oracle); and when every send succeeds, the one-time-unit pacing pause
occurs exactly between consecutive parts and not after the last one.  When
a part's send fails, the pause after it is skipped (the sleep sits inside
the `try`), which is the correction to the claim. -/
theorem delivery_order_isolation_pacing (send_ok : Nat → Bool) (parts : List (List Char)) :
    attempts_of (send_parts send_ok parts) = parts.enum ∧
    ((∀ k, send_ok k = true) →
      send_parts send_ok parts =
        List.intersperse (SendEvent.pause 1)
          (parts.enum.map (fun ip => SendEvent.attempt ip.1 ip.2))) := by
  constructor
  · rw [send_parts]
    exact attempts_of_send_parts_loop send_ok parts.length parts 0
  · intro hok
    rw [send_parts]
    exact send_parts_loop_all_ok send_ok hok parts 0 parts.length (Nat.zero_add _)

/-- Witness for C6 at two concrete parts with all sends succeeding. -/
theorem delivery_order_isolation_pacing_witness :
    attempts_of (send_parts allSendsOk twoParts) = twoParts.enum ∧
    send_parts allSendsOk twoParts =
      List.intersperse (SendEvent.pause 1)
        (twoParts.enum.map (fun ip => SendEvent.attempt ip.1 ip.2)) :=
  ⟨(delivery_order_isolation_pacing allSendsOk twoParts).1,
   (delivery_order_isolation_pacing allSendsOk twoParts).2 (fun _ => rfl)⟩

/-- C6, counterexample: with two parts and the first send failing, the
second part is still attempted (isolation holds) but no pacing pause occurs
between the two consecutive parts, contrary to the claim's unconditional
pacing clause. -/
theorem delivery_pacing_counterexample :
    send_parts firstSendFails twoParts =
      [SendEvent.attempt 0 [charA], SendEvent.failure_logged 0,
       SendEvent.attempt 1 [charB]] ∧
    SendEvent.pause 1 ∉ send_parts firstSendFails twoParts := by
  constructor
  · rfl
  · decide

/-- C8: a text of at most 4000 characters is delivered as exactly one
message part equal to the input text, with no splitting. -/
theorem short_text_sent_unsplit (send_ok : Nat → Bool) (text : List Char)
    (h : text.length ≤ MAX_MESSAGE_LENGTH) :
    attempts_of (send_telegram_message_telethon send_ok text) = [(0, text)] := by
  rw [send_telegram_message_telethon, if_pos h]
  cases hok : send_ok 0 <;> simp [attempts_of]

/-- Witness for C8 at a one-character text. -/
theorem short_text_sent_unsplit_witness :
    [charA].length ≤ MAX_MESSAGE_LENGTH ∧
    attempts_of (send_telegram_message_telethon allSendsOk [charA]) = [(0, [charA])] :=
  ⟨by decide, short_text_sent_unsplit allSendsOk [charA] (by decide)⟩

-- Translator.

/-- C9: translating empty input returns an absent result and makes no
external provider call, whatever the role flag and the configured
provider. -/
theorem translate_text_empty_input (env : TranslationBackend) (is_title : Bool) :
    translate_text env "" is_title = (none, 0) := by
  rw [translate_text, if_pos rfl]

-- Handler lemmas.

theorem py_truthy_some_of_long {s : String} (hlen : 50 ≤ s.length) :
    py_truthy (some s) = true := by
  rw [py_truthy]
  have hs : ¬ s = "" := by
    intro h
    rw [h] at hlen
    simp at hlen
  rw [if_neg hs]

/-- C5: an absent or too-short extracted body aborts both handlers before
any translation call (`api_calls = 0`): the automatic handler (threshold
50) silently, with only a warning logged; the manual handler (threshold 30)
with a warning logged and an explanatory reply to the triggering chat.
An absent body satisfies the length hypotheses since `(none).getD ""` is
empty. -/
theorem short_body_aborts_before_translation (env : TranslationBackend) (url : String)
    (t b : Option String) :
    ((b.getD "").length < 50 →
      handle_new_post env [url] (t, b) =
        ⟨[BotAction.warn (auto_extract_warn url)], 0⟩) ∧
    ((b.getD "").length < 30 →
      manual_translate_handler env [url] (t, b) =
        ⟨[BotAction.reply (manual_processing_reply url),
          BotAction.warn (manual_extract_warn url),
          BotAction.reply (manual_extract_reply url)], 0⟩) := by
  constructor
  · intro h
    rw [handle_new_post]
    dsimp only
    rw [if_pos (Or.inr h)]
  · intro h
    rw [manual_translate_handler]
    dsimp only
    rw [if_pos (Or.inr h)]

/-- Witness for C5 with a 5-character body. -/
theorem short_body_aborts_before_translation_witness :
    ("short" : String).length < 50 ∧ ("short" : String).length < 30 ∧
    handle_new_post titleFailBackend ["https://mihaaru.com/a"] (none, some "short") =
      ⟨[BotAction.warn (auto_extract_warn "https://mihaaru.com/a")], 0⟩ ∧
    manual_translate_handler titleFailBackend ["https://mihaaru.com/a"] (none, some "short") =
      ⟨[BotAction.reply (manual_processing_reply "https://mihaaru.com/a"),
        BotAction.warn (manual_extract_warn "https://mihaaru.com/a"),
        BotAction.reply (manual_extract_reply "https://mihaaru.com/a")], 0⟩ :=
  ⟨by decide, by decide,
   (short_body_aborts_before_translation titleFailBackend "https://mihaaru.com/a"
      none (some "short")).1 (by decide),
   (short_body_aborts_before_translation titleFailBackend "https://mihaaru.com/a"
      none (some "short")).2 (by decide)⟩

theorem py_truthy_some_ne_empty {s : String} (hs : ¬ s = "") :
    py_truthy (some s) = true := by
  rw [py_truthy, if_neg hs]

/-- C1 (amended): a falsy body-translation result (provider not configured,
provider call errored, response malformed or empty) aborts both handlers
before composition — each under its own reachability threshold (body length
at least 50 for the automatic handler, at least 30 for the manual one): no
message is sent and any already-obtained title translation is discarded —
the automatic handler emits only the warning, the manual handler only its
warning and explanatory reply.  A failed *title* translation, by contrast,
does not abort the pipeline (see the counterexample), which is the
correction to the claim. -/
theorem body_translation_failure_aborts (env : TranslationBackend) (url : String)
    (t : Option String) (s : String)
    (hfail : py_truthy (translate_text env s false).1 = false) :
    (50 ≤ s.length →
      (handle_new_post env [url] (t, some s)).actions =
        [BotAction.warn (auto_translate_warn url)]) ∧
    (30 ≤ s.length →
      (manual_translate_handler env [url] (t, some s)).actions =
        [BotAction.reply (manual_processing_reply url),
         BotAction.warn (manual_translate_warn url),
         BotAction.reply (manual_translate_reply url)]) := by
  constructor
  · intro hlen
    have hcond : ¬ (py_truthy (some s) = false ∨ s.length < 50) := by
      intro hc
      rcases hc with hc | hc
      · have hs : ¬ s = "" := by
          intro h
          rw [h] at hlen
          simp at hlen
        rw [py_truthy_some_ne_empty hs] at hc
        exact Bool.noConfusion hc
      · omega
    rw [handle_new_post]
    dsimp only [Option.getD_some]
    rw [if_neg hcond]
    rw [if_pos hfail]
  · intro hlen
    have hcond : ¬ (py_truthy (some s) = false ∨ s.length < 30) := by
      intro hc
      rcases hc with hc | hc
      · have hs : ¬ s = "" := by
          intro h
          rw [h] at hlen
          simp at hlen
        rw [py_truthy_some_ne_empty hs] at hc
        exact Bool.noConfusion hc
      · omega
    rw [manual_translate_handler]
    dsimp only [Option.getD_some]
    rw [if_neg hcond]
    rw [if_pos hfail]

/-- Witness for C1 with a backend whose body calls fail. -/
theorem body_translation_failure_aborts_witness :
    py_truthy (translate_text bodyFailBackend body50 false).1 = false ∧
    50 ≤ body50.length ∧ 30 ≤ body50.length ∧
    (handle_new_post bodyFailBackend ["https://mihaaru.com/b"]
        (some "Dhivehi title", some body50)).actions =
      [BotAction.warn (auto_translate_warn "https://mihaaru.com/b")] ∧
    (manual_translate_handler bodyFailBackend ["https://mihaaru.com/b"]
        (some "Dhivehi title", some body50)).actions =
      [BotAction.reply (manual_processing_reply "https://mihaaru.com/b"),
       BotAction.warn (manual_translate_warn "https://mihaaru.com/b"),
       BotAction.reply (manual_translate_reply "https://mihaaru.com/b")] :=
  ⟨by decide, by decide, by decide,
   (body_translation_failure_aborts bodyFailBackend "https://mihaaru.com/b"
      (some "Dhivehi title") body50 (by decide)).1 (by decide),
   (body_translation_failure_aborts bodyFailBackend "https://mihaaru.com/b"
      (some "Dhivehi title") body50 (by decide)).2 (by decide)⟩

/-- C1, counterexample: with a backend whose title calls fail and whose body
calls succeed, the title translation call of the event fails, yet the
automatic handler's trace is exactly one `send` of the composed message
(built without the title block) — an outbound message is composed and
delivered despite the failed translation call, contradicting the claim's
quantification over both translation calls of an event. -/
theorem title_translation_failure_not_aborting :
    (translate_text titleFailBackend "Dhivehi title" true).1 = none ∧
    (handle_new_post titleFailBackend ["https://mihaaru.com/c"]
        (some "Dhivehi title", some body50)).actions =
      [BotAction.send
        (compose_message none "Translated body." "https://mihaaru.com/c")] := by
  constructor
  · rfl
  · rw [handle_new_post]
    dsimp only [Option.getD_some]
    rw [if_neg (by decide :
      ¬ (py_truthy (some body50) = false ∨ body50.length < 50))]
    rw [if_neg (by decide :
      ¬ (py_truthy (translate_text titleFailBackend body50 false).1 = false))]
    rfl

/-- C7: when a title was extracted but the body translation returns no
result, the automatic handler aborts before composition — its only
outbound action is the logged translation-failure warning, so no message
is sent and the title translation result (whatever it was) is
discarded. -/
theorem body_failure_discards_title (env : TranslationBackend) (url : String)
    (t s : String) (hlen : 50 ≤ s.length)
    (hfail : (translate_text env s false).1 = none) :
    (handle_new_post env [url] (some t, some s)).actions =
      [BotAction.warn (auto_translate_warn url)] := by
  have hcond : ¬ (py_truthy (some s) = false ∨ s.length < 50) := by
    intro hc
    rcases hc with hc | hc
    · rw [py_truthy_some_of_long hlen] at hc
      exact Bool.noConfusion hc
    · omega
  rw [handle_new_post]
  dsimp only [Option.getD_some]
  rw [if_neg hcond]
  rw [if_pos (by rw [hfail]; rfl)]

/-- Witness for C7 with a backend whose body calls fail. -/
theorem body_failure_discards_title_witness :
    50 ≤ body50.length ∧
    (translate_text bodyFailBackend body50 false).1 = none ∧
    (handle_new_post bodyFailBackend ["https://mihaaru.com/d"]
        (some "Dhivehi title", some body50)).actions =
      [BotAction.warn (auto_translate_warn "https://mihaaru.com/d")] :=
  ⟨by decide, by decide,
   body_failure_discards_title bodyFailBackend "https://mihaaru.com/d"
     "Dhivehi title" body50 (by decide) (by decide)⟩

-- Article extraction.

theorem intercalate_three (s a b c : String) :
    String.intercalate s [a, b, c] = a ++ s ++ b ++ s ++ c := rfl

/-- C3: on a document whose marker comment is followed by three matching
paragraphs, then the hidden/wide-viewport divider, then a fourth matching
paragraph, the walk collects exactly the first three paragraphs' texts —
the fourth is excluded because the walk stops at the divider — and the
extracted body text is those three texts joined by blank lines. -/
theorem comment_walk_stops_at_divider (t1 t2 t3 t4 : String) :
    collect_article_texts (scenario_elements t1 t2 t3 t4) = [t1, t2, t3] ∧
    extracted_body_text (scenario_doc t1 t2 t3 t4) = t1 ++ "\n\n" ++ t2 ++ "\n\n" ++ t3 := by
  have hc : collect_article_texts (scenario_elements t1 t2 t3 t4) = [t1, t2, t3] := rfl
  have hne : String.intercalate "\n\n" [t1, t2, t3] ≠ "" := by
    rw [intercalate_three]
    intro h
    have h2 := congrArg String.length h
    simp only [String.length_append, String.length_empty] at h2
    have h3 : ("\n\n" : String).length = 2 := rfl
    omega
  have hcb : comment_based_body (scenario_elements t1 t2 t3 t4) =
      String.intercalate "\n\n" [t1, t2, t3] := by
    rw [comment_based_body, hc]
    rw [if_neg (List.cons_ne_nil _ _)]
  refine ⟨hc, ?_⟩
  rw [extracted_body_text, scenario_doc]
  dsimp only
  rw [hcb, if_neg hne, intercalate_three]

/-- C4: the post-parse result of `fetch_article_text` is the failure pair
`(none, none)` exactly when both the extracted title and the final
post-processed body text are falsy (absent or empty); when at least one of
them is truthy the pair is returned as found, partial or not — no
minimum-length policy is applied here. -/
theorem fetch_failure_only_when_both_empty (doc : ParsedDoc) :
    (fetch_article_text doc = (none, none) ↔
      (py_truthy doc.dhivehi_title = false ∧ py_truthy (final_body_text doc) = false)) ∧
    (¬ (py_truthy doc.dhivehi_title = false ∧ py_truthy (final_body_text doc) = false) →
      fetch_article_text doc = (doc.dhivehi_title, final_body_text doc)) := by
  by_cases hc : py_truthy doc.dhivehi_title = false ∧ py_truthy (final_body_text doc) = false
  · rw [fetch_article_text, if_pos hc]
    exact ⟨⟨fun _ => hc, fun _ => rfl⟩, fun hn => absurd hc hn⟩
  · rw [fetch_article_text, if_neg hc]
    constructor
    · constructor
      · intro h
        have h1 : doc.dhivehi_title = none := congrArg Prod.fst h
        have h2 : final_body_text doc = none := congrArg Prod.snd h
        exact absurd ⟨by rw [h1]; rfl, by rw [h2]; rfl⟩ hc
      · intro h
        exact absurd h hc
    · intro _
      rfl

/-- Witness for C4 at a document with a truthy title. -/
theorem fetch_failure_only_when_both_empty_witness :
    fetch_article_text simpleDoc = (simpleDoc.dhivehi_title, final_body_text simpleDoc) :=
  (fetch_failure_only_when_both_empty simpleDoc).2
    (fun h => absurd h.1 (by decide))
